import Mathlib

/-!
Verification of the coin-collector mini-game simulation core.

The embedded code is the Three.js mini-game component: the per-frame
`animate` callback (player movement with clamping, then coin and obstacle
collision checks), the collision routines `checkCoinCollisions` and
`checkObstacleCollisions` with their rejection-sampling respawn loops, the
initial placement routines `generateCoins` and `generateObstacles`, the
one-second timer countdown, and the `startGame` initialisation.

Modelling conventions:
* Positions use exact rationals for the two planar coordinates `x` and `z`
  (the vertical coordinate never participates in game logic).
* The source compares `Math.sqrt(dx^2 + dz^2) < r` for a non-negative
  radius `r`; since both sides are non-negative this is equivalent to
  `dx^2 + dz^2 < r^2`, which is how the comparison is phrased here so that
  everything stays inside `ℚ`.
* `Math.random()` is modelled as an infinite stream `ℕ → ℚ` of draws,
  consumed in program order; theorems that depend on the draws lying in
  the unit interval assume that explicitly.
* The source's `do { ... } while (dist < 5)` respawn loop has no iteration
  cap; it is modelled with explicit fuel returning `Option`, where `none`
  means the loop did not terminate within the given fuel.  Any terminating
  run of the source loop corresponds to a sufficiently large fuel value.
-/

/-- A planar position: the `x` and `z` coordinates of an entity on the
play field. -/
structure Pos where
  x : ℚ
  z : ℚ
deriving DecidableEq

/-- The player's movement-direction vector (`directionRef`), set from
keyboard state. -/
structure Direction where
  x : ℚ
  z : ℚ
deriving DecidableEq

/-- An obstacle: a position plus the bad-decision label stored in its
`userData` at creation. -/
structure Obstacle where
  pos : Pos
  badDecision : String
deriving DecidableEq

/-- Squared planar distance between two positions.  The source computes
`Math.sqrt(Math.pow(ax-bx,2) + Math.pow(az-bz,2))` and compares the root
against non-negative radii; comparisons here use the square on both
sides. -/
def distSq (a b : Pos) : ℚ := (a.x - b.x) ^ 2 + (a.z - b.z) ^ 2

/-- Financial tips shown when collecting coins (`FINANCE_TIPS`). -/
def FINANCE_TIPS : List String :=
  [ "Save at least 20% of your income for long-term goals."
  , "Pay off high-interest debt before investing."
  , "Build an emergency fund covering 3-6 months of expenses."
  , "Start investing early to benefit from compound interest."
  , "Don\x27t try to time the market - invest regularly."
  , "Live below your means to build wealth over time."
  , "Track your spending to identify savings opportunities."
  , "Set specific financial goals with deadlines."
  , "Review your budget regularly and adjust as needed."
  , "Diversify your investments to reduce risk." ]

/-- Bad financial decisions attached to obstacles (`BAD_DECISIONS`). -/
def BAD_DECISIONS : List String :=
  [ "Carrying credit card balances month to month"
  , "Taking payday loans with high interest"
  , "Buying a car you can\x27t afford"
  , "Ignoring your retirement planning"
  , "Making impulse purchases regularly" ]

/-- Player speed (`moveSpeed = 5`). -/
def moveSpeed : ℚ := 5

/-- Coin collision radius (`collisionDistance = 1.2` in
`checkCoinCollisions`). -/
def coinCollisionDistance : ℚ := 12 / 10

/-- Obstacle collision radius (`collisionDistance = 1.3` in
`checkObstacleCollisions`). -/
def obstacleCollisionDistance : ℚ := 13 / 10

/-- Exclusion radius for respawn placement (the `< 5` bound of the
`do`/`while` loops). -/
def exclusionRadius : ℚ := 5

/-- The stream of `Math.random()` results, indexed by draw order. -/
abbrev RandStream : Type := ℕ → ℚ

/-- One sampled coordinate: the source writes `(Math.random() - 0.5) * 25`. -/
def sampleCoord (r : ℚ) : ℚ := (r - 1 / 2) * 25

/-- A sampled position consumes two consecutive draws, `x` first, then `z`. -/
def samplePos (rand : RandStream) (k : ℕ) : Pos :=
  { x := sampleCoord (rand k), z := sampleCoord (rand (k + 1)) }

/-- Does a coin at `c` collide with the player at `player`?  The source
tests `distance < collisionDistance` with `collisionDistance = 1.2`. -/
def coinHit (player c : Pos) : Bool :=
  decide (distSq player c < coinCollisionDistance ^ 2)

/-- Does an obstacle at `p` collide with the player at `player`?  The
source tests `distance < collisionDistance` with `collisionDistance = 1.3`. -/
def obstacleHit (player p : Pos) : Bool :=
  decide (distSq player p < obstacleCollisionDistance ^ 2)

/-- The respawn placement loop of the source:
`do { x = (Math.random()-0.5)*25; z = (Math.random()-0.5)*25 } while (dist(player,(x,z)) < 5)`.
Each iteration consumes two draws starting at stream index `k`.  Fuel
bounds the number of iterations; `none` means the loop did not finish
within the fuel.  On success the accepted position and the next unused
stream index are returned. -/
def rejectionSample (player : Pos) (rand : RandStream) : ℕ → ℕ → Option (Pos × ℕ)
  | 0, _ => none
  | fuel + 1, k =>
    let p := samplePos rand k
    if distSq player p < exclusionRadius ^ 2 then
      rejectionSample player rand fuel (k + 2)
    else
      some (p, k + 2)

/-- `checkCoinCollisions`: iterate over the coin array downwards from the
last index; a colliding coin adds 10 to the score, is removed, triggers a
random tip draw (`FINANCE_TIPS[Math.floor(Math.random() * FINANCE_TIPS.length)]`)
and a replacement coin placed by the rejection loop, pushed at the end of
the array.  Downward iteration means each original coin is examined
exactly once and replacements pushed past the starting index are never
re-examined in the same pass; the recursion below processes the tail
(higher indices) first, exactly mirroring that order, and returns the
kept coins (in original order), the pushed replacement coins (in push
order), the tips shown, the next stream index, and the updated score. -/
def checkCoinCollisions (player : Pos) (rand : RandStream) (fuel : ℕ) :
    List Pos → ℕ → ℤ → Option (List Pos × List Pos × List String × ℕ × ℤ)
  | [], k, score => some ([], [], [], k, score)
  | c :: rest, k, score =>
    match checkCoinCollisions player rand fuel rest k score with
    | none => none
    | some (kept, newCoins, tips, k1, score1) =>
      if coinHit player c then
        let tip := FINANCE_TIPS.getD ⌊rand k1 * (FINANCE_TIPS.length : ℚ)⌋.toNat ""
        match rejectionSample player rand fuel (k1 + 1) with
        | none => none
        | some (p, k2) => some (kept, newCoins ++ [p], tips ++ [tip], k2, score1 + 10)
      else
        some (c :: kept, newCoins, tips, k1, score1)

/-- The obstacle penalty: `setScore((prev) => Math.max(0, prev - 5))`. -/
def penalize (s : ℤ) : ℤ := max 0 (s - 5)

/-- `checkObstacleCollisions`: iterate over the obstacle array downwards;
a colliding obstacle applies the floored 5-point penalty, emits its
`badDecision` label, and is moved in place to a position chosen by the
rejection loop (it keeps its array slot and its label).  Returns the
updated obstacle list (in original index order), the emitted labels (in
emission order, i.e. highest index first), the next stream index, and the
updated score. -/
def checkObstacleCollisions (player : Pos) (rand : RandStream) (fuel : ℕ) :
    List Obstacle → ℕ → ℤ → Option (List Obstacle × List String × ℕ × ℤ)
  | [], k, score => some ([], [], k, score)
  | o :: rest, k, score =>
    match checkObstacleCollisions player rand fuel rest k score with
    | none => none
    | some (obs1, hits, k1, score1) =>
      if obstacleHit player o.pos then
        match rejectionSample player rand fuel k1 with
        | none => none
        | some (p, k2) =>
          some ({ o with pos := p } :: obs1, hits ++ [o.badDecision], k2, penalize score1)
      else
        some (o :: obs1, hits, k1, score1)

/-- Clamping a coordinate to the play bounds:
`Math.max(-14, Math.min(14, v))`. -/
def clamp (v : ℚ) : ℚ := max (-14) (min 14 v)

/-- The movement step of `animate`: each coordinate advances by
`direction * moveSpeed * deltaTime` and is then clamped to `[-14, 14]`. -/
def movePlayer (p : Pos) (dir : Direction) (dt : ℚ) : Pos :=
  { x := clamp (p.x + dir.x * moveSpeed * dt)
  , z := clamp (p.z + dir.z * moveSpeed * dt) }

/-- The whole session state owned by the component: player mesh position,
coin and obstacle arrays, score, remaining seconds, and the ended flag. -/
structure GameState where
  player : Pos
  coins : List Pos
  obstacles : List Obstacle
  score : ℤ
  timeLeft : ℕ
  gameEnded : Bool
deriving DecidableEq

/-- One frame of the `animate` loop, given the current direction, the
frame's `deltaTime` (seconds), the random stream with its next unused
index `k`, and fuel for the respawn loops.  While the game is ended the
animation effect is torn down, so a frame on an ended session changes
nothing.  Otherwise: move and clamp the player, then run the coin check
and the obstacle check against the post-move position.  Returns the new
state, the tips and hit labels emitted this frame, and the next stream
index. -/
def tick (dir : Direction) (dt : ℚ) (rand : RandStream) (fuel : ℕ)
    (s : GameState) (k : ℕ) : Option (GameState × List String × List String × ℕ) :=
  if s.gameEnded then some (s, [], [], k)
  else
    let p := movePlayer s.player dir dt
    match checkCoinCollisions p rand fuel s.coins k s.score with
    | none => none
    | some (kept, newCoins, tips, k1, score1) =>
      match checkObstacleCollisions p rand fuel s.obstacles k1 score1 with
      | none => none
      | some (obs, hits, k2, score2) =>
        some ({ s with player := p, coins := kept ++ newCoins,
                       obstacles := obs, score := score2 }, tips, hits, k2)

/-- `generateCoins`: ten coins, each placed at
`((Math.random()-0.5)*25, (Math.random()-0.5)*25)` with no exclusion
check; coin `i` consumes the draws at stream indices `k + 2i` and
`k + 2i + 1`. -/
def generateCoins (rand : RandStream) (k : ℕ) : List Pos :=
  (List.range 10).map fun i => samplePos rand (k + 2 * i)

/-- `generateObstacles`: five obstacles, obstacle `i` carrying the label
`BAD_DECISIONS[i % BAD_DECISIONS.length]` and a position sampled like the
coins, with no exclusion check. -/
def generateObstacles (rand : RandStream) (k : ℕ) : List Obstacle :=
  (List.range 5).map fun i =>
    { pos := samplePos rand (k + 2 * i)
    , badDecision := BAD_DECISIONS.getD (i % BAD_DECISIONS.length) "" }

/-- `startGame` plus the scene setup: score 0, 60 seconds on the clock,
not ended, the wallet at the origin, then `generateCoins` (twenty draws)
followed by `generateObstacles` (ten more draws). -/
def startGame (rand : RandStream) : GameState :=
  { player := { x := 0, z := 0 }
  , coins := generateCoins rand 0
  , obstacles := generateObstacles rand 20
  , score := 0
  , timeLeft := 60
  , gameEnded := false }

/-- One firing of the one-second countdown interval:
`setTimeLeft((prev) => prev <= 1 ? (endGame(); 0) : prev - 1)`.  The
interval is only installed while the game is running, so on an ended
session nothing happens. -/
def timerStep (s : GameState) : GameState :=
  if s.gameEnded then s
  else if s.timeLeft ≤ 1 then { s with timeLeft := 0, gameEnded := true }
  else { s with timeLeft := s.timeLeft - 1 }

/-- The player-bounds invariant: both coordinates within `[-14, 14]`. -/
def inBounds (p : Pos) : Prop :=
  -14 ≤ p.x ∧ p.x ≤ 14 ∧ -14 ≤ p.z ∧ p.z ≤ 14

/-- The entity-coordinate range actually produced by sampling:
`(r - 0.5) * 25` for `r` in the unit interval lies in `[-12.5, 12.5]`. -/
def inEntityRange (p : Pos) : Prop :=
  -(25 / 2) ≤ p.x ∧ p.x ≤ 25 / 2 ∧ -(25 / 2) ≤ p.z ∧ p.z ≤ 25 / 2

/-- All coins and all obstacles of a state lie in the sampled range. -/
def entitiesInRange (s : GameState) : Prop :=
  (∀ c ∈ s.coins, inEntityRange c) ∧ (∀ o ∈ s.obstacles, inEntityRange o.pos)

/-- The random stream draws lie in the unit interval, as `Math.random()`
guarantees. -/
def unitRand (rand : RandStream) : Prop :=
  ∀ n, 0 ≤ rand n ∧ rand n ≤ 1

/-! ### Helper lemmas -/

/-- A position accepted by the respawn loop is at squared distance at
least `exclusionRadius ^ 2` from the player. -/
theorem rejectionSample_dist (player : Pos) (rand : RandStream) :
    ∀ fuel k p k', rejectionSample player rand fuel k = some (p, k') →
      exclusionRadius ^ 2 ≤ distSq player p := by
  intro fuel
  induction fuel with
  | zero => intro k p k' h; simp [rejectionSample] at h
  | succ n ih =>
    intro k p k' h
    simp only [rejectionSample] at h
    split at h
    · exact ih _ _ _ h
    · rename_i hlt
      simp only [Option.some.injEq, Prod.mk.injEq] at h
      obtain ⟨hp, -⟩ := h
      subst hp
      exact le_of_not_lt hlt

/-- A position accepted by the respawn loop is one of the sampled
candidates. -/
theorem rejectionSample_samplePos (player : Pos) (rand : RandStream) :
    ∀ fuel k p k', rejectionSample player rand fuel k = some (p, k') →
      ∃ k0, p = samplePos rand k0 := by
  intro fuel
  induction fuel with
  | zero => intro k p k' h; simp [rejectionSample] at h
  | succ n ih =>
    intro k p k' h
    simp only [rejectionSample] at h
    split at h
    · exact ih _ _ _ h
    · simp only [Option.some.injEq, Prod.mk.injEq] at h
      exact ⟨k, h.1.symm⟩

/-- A coordinate sampled from a unit-interval draw lies in `[-12.5, 12.5]`. -/
theorem sampleCoord_mem (r : ℚ) (h0 : 0 ≤ r) (h1 : r ≤ 1) :
    -(25 / 2) ≤ sampleCoord r ∧ sampleCoord r ≤ 25 / 2 := by
  unfold sampleCoord
  constructor <;> nlinarith

/-- A sampled position from a unit-interval stream lies in the entity
range. -/
theorem samplePos_range (rand : RandStream) (hr : unitRand rand) (k : ℕ) :
    inEntityRange (samplePos rand k) := by
  obtain ⟨hx0, hx1⟩ := hr k
  obtain ⟨hz0, hz1⟩ := hr (k + 1)
  obtain ⟨ha, hb⟩ := sampleCoord_mem _ hx0 hx1
  obtain ⟨hc, hd⟩ := sampleCoord_mem _ hz0 hz1
  exact ⟨ha, hb, hc, hd⟩

/-- Clamped coordinates lie in `[-14, 14]`. -/
theorem clamp_mem (v : ℚ) : -14 ≤ clamp v ∧ clamp v ≤ 14 := by
  unfold clamp
  constructor
  · exact le_max_left _ _
  · exact max_le (by norm_num) (min_le_left _ _)

/-- The moved player always lies in bounds, whatever the direction and
delta-time. -/
theorem movePlayer_inBounds (p : Pos) (dir : Direction) (dt : ℚ) :
    inBounds (movePlayer p dir dt) := by
  obtain ⟨h1, h2⟩ := clamp_mem (p.x + dir.x * moveSpeed * dt)
  obtain ⟨h3, h4⟩ := clamp_mem (p.z + dir.z * moveSpeed * dt)
  exact ⟨h1, h2, h3, h4⟩

/-- The obstacle penalty never produces a negative score. -/
theorem penalize_nonneg (s : ℤ) : 0 ≤ penalize s := le_max_left _ _

/-- Iterating the obstacle penalty preserves non-negativity of the
score. -/
theorem penalize_iter_nonneg (n : ℕ) (s : ℤ) (hs : 0 ≤ s) :
    0 ≤ penalize^[n] s := by
  cases n with
  | zero => simpa using hs
  | succ m => rw [Function.iterate_succ_apply']; exact penalize_nonneg _

/-- Full characterisation of a successful coin-collision pass: the kept
coins are exactly the non-colliding ones in order, one replacement is
pushed per colliding coin, the score gains 10 per colliding coin, and
every replacement comes out of the respawn loop. -/
theorem checkCoinCollisions_spec (player : Pos) (rand : RandStream) (fuel : ℕ) :
    ∀ (coins : List Pos) (k : ℕ) (score : ℤ) kept newCoins tips k' score',
      checkCoinCollisions player rand fuel coins k score =
        some (kept, newCoins, tips, k', score') →
      kept = coins.filter (fun c => ! coinHit player c) ∧
      newCoins.length = coins.countP (coinHit player) ∧
      score' = score + 10 * coins.countP (coinHit player) ∧
      ∀ p ∈ newCoins, ∃ k0 k1, rejectionSample player rand fuel k0 = some (p, k1) := by
  intro coins
  induction coins with
  | nil =>
    intro k score kept newCoins tips k' score' h
    simp only [checkCoinCollisions, Option.some.injEq, Prod.mk.injEq] at h
    obtain ⟨h1, h2, h3, h4, h5⟩ := h
    subst h1; subst h2; subst h5
    simp
  | cons c rest ih =>
    intro k score kept newCoins tips k' score' h
    rw [checkCoinCollisions] at h
    cases hrec : checkCoinCollisions player rand fuel rest k score with
    | none => rw [hrec] at h; exact absurd h (by simp)
    | some v =>
      obtain ⟨kept1, newCoins1, tips1, k1, score1⟩ := v
      rw [hrec] at h
      dsimp only at h
      obtain ⟨h1, h2, h3, h4⟩ := ih k score _ _ _ _ _ hrec
      by_cases hc : coinHit player c
      · rw [if_pos hc] at h
        cases hrs : rejectionSample player rand fuel (k1 + 1) with
        | none => rw [hrs] at h; exact absurd h (by simp)
        | some pq =>
          obtain ⟨p, k2⟩ := pq
          rw [hrs] at h
          dsimp only at h
          simp only [Option.some.injEq, Prod.mk.injEq] at h
          obtain ⟨e1, e2, e3, e4, e5⟩ := h
          subst e1; subst e2; subst e5
          refine ⟨?_, ?_, ?_, ?_⟩
          · simp [List.filter_cons, hc, h1]
          · simp [List.countP_cons, hc, h2]
          · simp only [List.countP_cons, hc, if_pos]
            rw [h3]; push_cast; ring
          · intro q hq
            rcases List.mem_append.mp hq with hq1 | hq2
            · exact h4 q hq1
            · rcases List.mem_singleton.mp hq2 with rfl
              exact ⟨k1 + 1, k2, hrs⟩
      · rw [if_neg hc] at h
        simp only [Option.some.injEq, Prod.mk.injEq] at h
        obtain ⟨e1, e2, e3, e4, e5⟩ := h
        subst e1; subst e2; subst e5
        refine ⟨?_, ?_, ?_, h4⟩
        · simp [List.filter_cons, hc, h1]
        · simp [List.countP_cons, hc, h2]
        · simp [List.countP_cons, hc, h3]

/-- Full characterisation of a successful obstacle-collision pass: the
obstacle list keeps its length and its labels slot by slot, each
colliding obstacle is relocated through the respawn loop while
non-colliding ones are untouched, the floored penalty is applied once per
colliding obstacle, and the emitted labels are exactly the labels of the
colliding obstacles in emission (reverse index) order. -/
theorem checkObstacleCollisions_spec (player : Pos) (rand : RandStream) (fuel : ℕ) :
    ∀ (obs : List Obstacle) (k : ℕ) (score : ℤ) obs' hits k' score',
      checkObstacleCollisions player rand fuel obs k score =
        some (obs', hits, k', score') →
      obs'.length = obs.length ∧
      obs'.map Obstacle.badDecision = obs.map Obstacle.badDecision ∧
      score' = penalize^[obs.countP (fun o => obstacleHit player o.pos)] score ∧
      hits = ((obs.filter (fun o => obstacleHit player o.pos)).map
        Obstacle.badDecision).reverse ∧
      ∀ o' ∈ obs', o' ∈ obs ∨
        ∃ k0 k1, rejectionSample player rand fuel k0 = some (o'.pos, k1) := by
  intro obs
  induction obs with
  | nil =>
    intro k score obs' hits k' score' h
    simp only [checkObstacleCollisions, Option.some.injEq, Prod.mk.injEq] at h
    obtain ⟨h1, h2, h3, h4⟩ := h
    subst h1; subst h2; subst h4
    simp
  | cons o rest ih =>
    intro k score obs' hits k' score' h
    rw [checkObstacleCollisions] at h
    cases hrec : checkObstacleCollisions player rand fuel rest k score with
    | none => rw [hrec] at h; exact absurd h (by simp)
    | some v =>
      obtain ⟨obs1, hits1, k1, score1⟩ := v
      rw [hrec] at h
      dsimp only at h
      obtain ⟨h1, h2, h3, h4, h5⟩ := ih k score _ _ _ _ hrec
      by_cases ho : obstacleHit player o.pos
      · rw [if_pos ho] at h
        cases hrs : rejectionSample player rand fuel k1 with
        | none => rw [hrs] at h; exact absurd h (by simp)
        | some pq =>
          obtain ⟨p, k2⟩ := pq
          rw [hrs] at h
          dsimp only at h
          simp only [Option.some.injEq, Prod.mk.injEq] at h
          obtain ⟨e1, e2, e3, e4⟩ := h
          subst e1; subst e2; subst e4
          refine ⟨?_, ?_, ?_, ?_, ?_⟩
          · simp [h1]
          · simp [h2]
          · simp only [List.countP_cons, ho, if_pos]
            rw [Function.iterate_succ_apply', h3]
          · simp [List.filter_cons, ho, h4]
          · intro o' ho'
            rcases List.mem_cons.mp ho' with rfl | hmem
            · exact Or.inr ⟨k1, k2, hrs⟩
            · rcases h5 o' hmem with hin | hrej
              · exact Or.inl (List.mem_cons_of_mem _ hin)
              · exact Or.inr hrej
      · rw [if_neg ho] at h
        simp only [Option.some.injEq, Prod.mk.injEq] at h
        obtain ⟨e1, e2, e3, e4⟩ := h
        subst e1; subst e2; subst e4
        refine ⟨?_, ?_, ?_, ?_, ?_⟩
        · simp [h1]
        · simp [h2]
        · simp [List.countP_cons, ho, h3]
        · simp [List.filter_cons, ho, h4]
        · intro o' ho'
          rcases List.mem_cons.mp ho' with rfl | hmem
          · exact Or.inl (List.mem_cons_self _ _)
          · rcases h5 o' hmem with hin | hrej
            · exact Or.inl (List.mem_cons_of_mem _ hin)
            · exact Or.inr hrej

/-- A frame on an ended session changes nothing and emits nothing. -/
theorem tick_ended (dir : Direction) (dt : ℚ) (rand : RandStream) (fuel : ℕ)
    (s : GameState) (k : ℕ) (h : s.gameEnded = true) :
    tick dir dt rand fuel s k = some (s, [], [], k) := by
  simp [tick, h]

/-- The countdown interval is inert on an ended session. -/
theorem timerStep_ended (s : GameState) (h : s.gameEnded = true) :
    timerStep s = s := by
  simp [timerStep, h]

/-- Decomposition of a successful frame on a running session: the player
moves first, and both collision passes run against the post-move
position. -/
theorem tick_some_elim (dir : Direction) (dt : ℚ) (rand : RandStream) (fuel : ℕ)
    (s : GameState) (k : ℕ) (s' : GameState) (tips hits : List String) (k' : ℕ)
    (hend : s.gameEnded = false)
    (h : tick dir dt rand fuel s k = some (s', tips, hits, k')) :
    ∃ kept newCoins k1 score1 obs score2,
      checkCoinCollisions (movePlayer s.player dir dt) rand fuel s.coins k s.score =
        some (kept, newCoins, tips, k1, score1) ∧
      checkObstacleCollisions (movePlayer s.player dir dt) rand fuel s.obstacles k1 score1 =
        some (obs, hits, k', score2) ∧
      s' = { s with player := movePlayer s.player dir dt, coins := kept ++ newCoins,
                    obstacles := obs, score := score2 } := by
  rw [tick] at h
  rw [hend] at h
  simp only [Bool.false_eq_true, if_false] at h
  cases hc : checkCoinCollisions (movePlayer s.player dir dt) rand fuel s.coins k s.score with
  | none => rw [hc] at h; exact absurd h (by simp)
  | some v =>
    obtain ⟨kept, newCoins, tips1, k1, score1⟩ := v
    rw [hc] at h
    dsimp only at h
    cases ho : checkObstacleCollisions (movePlayer s.player dir dt) rand fuel
        s.obstacles k1 score1 with
    | none => rw [ho] at h; exact absurd h (by simp)
    | some w =>
      obtain ⟨obs, hits1, k2, score2⟩ := w
      rw [ho] at h
      dsimp only at h
      simp only [Option.some.injEq, Prod.mk.injEq] at h
      obtain ⟨e1, e2, e3, e4⟩ := h
      subst e2; subst e3; subst e4
      refine ⟨kept, newCoins, k1, score1, obs, score2, rfl, ho, ?_⟩
      rw [← e1, hend]

/-- Running the countdown for exactly the remaining seconds ends the
session, zeroes the clock, and leaves the score alone. -/
theorem timerStep_countdown :
    ∀ n (s : GameState), s.gameEnded = false → s.timeLeft = n + 1 →
      (timerStep^[n + 1] s).gameEnded = true ∧
      (timerStep^[n + 1] s).timeLeft = 0 ∧
      (timerStep^[n + 1] s).score = s.score := by
  intro n
  induction n with
  | zero =>
    intro s h1 h2
    rw [Function.iterate_one]
    simp [timerStep, h1, h2]
  | succ m ih =>
    intro s h1 h2
    rw [Function.iterate_succ_apply]
    have hs : timerStep s = { s with timeLeft := s.timeLeft - 1 } := by
      rw [timerStep, h1]
      simp only [Bool.false_eq_true, if_false]
      rw [if_neg (by omega)]
    rw [hs]
    have := ih { s with timeLeft := s.timeLeft - 1 } (by simp [h1]) (by simp [h2])
    simpa using this

/-- Every initial coin is a raw sample from the stream. -/
theorem mem_generateCoins (rand : RandStream) (k : ℕ) (c : Pos)
    (h : c ∈ generateCoins rand k) : ∃ k0, c = samplePos rand k0 := by
  obtain ⟨i, -, rfl⟩ := List.mem_map.mp h
  exact ⟨k + 2 * i, rfl⟩

/-- Every initial obstacle position is a raw sample from the stream. -/
theorem mem_generateObstacles (rand : RandStream) (k : ℕ) (o : Obstacle)
    (h : o ∈ generateObstacles rand k) : ∃ k0, o.pos = samplePos rand k0 := by
  obtain ⟨i, -, rfl⟩ := List.mem_map.mp h
  exact ⟨k + 2 * i, rfl⟩

/-- With unit-interval draws, every freshly initialised entity lies in
the sampled coordinate range. -/
theorem startGame_entitiesInRange (rand : RandStream) (hr : unitRand rand) :
    entitiesInRange (startGame rand) := by
  constructor
  · intro c hc
    obtain ⟨k0, rfl⟩ := mem_generateCoins rand 0 c hc
    exact samplePos_range rand hr k0
  · intro o ho
    obtain ⟨k0, he⟩ := mem_generateObstacles rand 20 o ho
    rw [he]
    exact samplePos_range rand hr k0

/-! ### Claim theorems -/

/-- A concrete random stream for witnesses: every draw is `9/10`, so
every sampled coordinate is `(9/10 - 1/2) * 25 = 10` and the first
respawn candidate is always accepted. -/
def wrand : RandStream := fun _ => 9 / 10

/-- C1: in a tick, every collectible whose planar distance to the
post-move player position is strictly below the collision radius 1.2
adds exactly 10 points to the score, is removed from the active set, and
is replaced by exactly one new collectible.  (Distances are compared in
squared form: `dist < 1.2` iff `distSq < 1.2 ^ 2`.) -/
theorem coin_collision_scoring (player : Pos) (rand : RandStream) (fuel k : ℕ)
    (coins kept newCoins : List Pos) (tips : List String) (k' : ℕ) (score score' : ℤ)
    (h : checkCoinCollisions player rand fuel coins k score =
      some (kept, newCoins, tips, k', score')) :
    score' = score + 10 * coins.countP (coinHit player) ∧
    kept = coins.filter (fun c => ! coinHit player c) ∧
    newCoins.length = coins.countP (coinHit player) := by
  obtain ⟨h1, h2, h3, -⟩ := checkCoinCollisions_spec player rand fuel coins k score
    kept newCoins tips k' score' h
  exact ⟨h3, h1, h2⟩

/-- Evaluation of the coin pass on the C1 spec scenario: player at the
origin, one collectible at (0, 0.5), previous score 0. -/
theorem checkCoin_eval_c1 :
    checkCoinCollisions ⟨0, 0⟩ wrand 1 [⟨0, 1/2⟩] 0 0 =
      some ([], [⟨10, 10⟩], ["Diversify your investments to reduce risk."], 3, 10) := by
  norm_num [checkCoinCollisions, rejectionSample, samplePos, sampleCoord, wrand,
    coinHit, distSq, coinCollisionDistance, exclusionRadius, FINANCE_TIPS]
  rfl

/-- Witness for C1, the spec scenario: player at the origin, one
collectible at (0, 0.5), previous score 0; the pass returns score 10
with the collectible removed and one replacement pushed. -/
theorem coin_collision_scoring_witness :
    checkCoinCollisions ⟨0, 0⟩ wrand 1 [⟨0, 1/2⟩] 0 0 =
      some ([], [⟨10, 10⟩], ["Diversify your investments to reduce risk."], 3, 10) ∧
    ((10 : ℤ) = 0 + 10 * ([(⟨0, 1/2⟩ : Pos)].countP (coinHit ⟨0, 0⟩)) ∧
     ([] : List Pos) = [(⟨0, 1/2⟩ : Pos)].filter (fun c => ! coinHit ⟨0, 0⟩ c) ∧
     ([(⟨10, 10⟩ : Pos)]).length = [(⟨0, 1/2⟩ : Pos)].countP (coinHit ⟨0, 0⟩)) :=
  ⟨checkCoin_eval_c1, coin_collision_scoring ⟨0, 0⟩ wrand 1 0 [⟨0, 1/2⟩] []
    [⟨10, 10⟩] ["Diversify your investments to reduce risk."] 3 0 10 checkCoin_eval_c1⟩

/-- C2: in a tick, every obstacle whose planar distance to the post-move
player position is strictly below the collision radius 1.3 applies the
floored penalty `max 0 (score - 5)` once, is relocated rather than
destroyed (the obstacle list keeps its length and its slot-by-slot
labels), and the emitted hit label is the label the obstacle carries,
which at creation is `BAD_DECISIONS` cycled by index. -/
theorem obstacle_collision_penalty (player : Pos) (rand : RandStream) (fuel k : ℕ)
    (obs obs' : List Obstacle) (hits : List String) (k' : ℕ) (score score' : ℤ)
    (h : checkObstacleCollisions player rand fuel obs k score =
      some (obs', hits, k', score')) :
    score' = penalize^[obs.countP (fun o => obstacleHit player o.pos)] score ∧
    obs'.length = obs.length ∧
    obs'.map Obstacle.badDecision = obs.map Obstacle.badDecision ∧
    hits = ((obs.filter (fun o => obstacleHit player o.pos)).map
      Obstacle.badDecision).reverse ∧
    ∀ rand0 k0, (generateObstacles rand0 k0).map Obstacle.badDecision = BAD_DECISIONS := by
  obtain ⟨h1, h2, h3, h4, -⟩ := checkObstacleCollisions_spec player rand fuel obs k
    score obs' hits k' score' h
  refine ⟨h3, h1, h2, h4, ?_⟩
  intro rand0 k0
  rfl

/-- The obstacle used in the C2 witness scenario. -/
def wObs : Obstacle := ⟨⟨0, 1⟩, "Carrying credit card balances month to month"⟩

/-- The same obstacle after its relocation in the C2 witness scenario. -/
def wObsMoved : Obstacle := ⟨⟨10, 10⟩, "Carrying credit card balances month to month"⟩

/-- Evaluation of the obstacle pass on the C2 spec scenario: player at
the origin, one obstacle at (0, 1), starting score 3; the score floors
at 0 instead of dropping to -2. -/
theorem checkObstacle_eval_c2 :
    checkObstacleCollisions ⟨0, 0⟩ wrand 1 [wObs] 0 3 =
      some ([wObsMoved], ["Carrying credit card balances month to month"], 2, 0) := by
  norm_num [checkObstacleCollisions, rejectionSample, samplePos, sampleCoord, wrand,
    obstacleHit, distSq, obstacleCollisionDistance, exclusionRadius, penalize,
    wObs, wObsMoved]

/-- Witness for C2, the spec scenario: starting score 3 and a colliding
obstacle give score 0 (floored), the obstacle relocated with its label
intact, and the hit label equal to its creation label. -/
theorem obstacle_collision_penalty_witness :
    checkObstacleCollisions ⟨0, 0⟩ wrand 1 [wObs] 0 3 =
      some ([wObsMoved], ["Carrying credit card balances month to month"], 2, 0) ∧
    ((0 : ℤ) = penalize^[[wObs].countP (fun o => obstacleHit ⟨0, 0⟩ o.pos)] 3 ∧
     [wObsMoved].length = [wObs].length ∧
     [wObsMoved].map Obstacle.badDecision = [wObs].map Obstacle.badDecision ∧
     ["Carrying credit card balances month to month"] =
       (([wObs].filter (fun o => obstacleHit ⟨0, 0⟩ o.pos)).map
         Obstacle.badDecision).reverse ∧
     ∀ rand0 k0, (generateObstacles rand0 k0).map Obstacle.badDecision = BAD_DECISIONS) :=
  ⟨checkObstacle_eval_c2, obstacle_collision_penalty ⟨0, 0⟩ wrand 1 0 [wObs]
    [wObsMoved] ["Carrying credit card balances month to month"] 2 3 0 checkObstacle_eval_c2⟩

/-- C3: within one frame of the animation loop, the player position is
first advanced by `direction * moveSpeed * deltaTime` per axis and
clamped to `[-14, 14]`, and both the coin pass and the obstacle pass are
then run against that post-move clamped position; no collision check in
the frame uses the pre-move position. -/
theorem tick_checks_postmove_position (dir : Direction) (dt : ℚ) (rand : RandStream)
    (fuel : ℕ) (s : GameState) (k : ℕ) (s' : GameState) (tips hits : List String)
    (k' : ℕ) (hend : s.gameEnded = false)
    (h : tick dir dt rand fuel s k = some (s', tips, hits, k')) :
    ∃ kept newCoins k1 score1 obs score2,
      checkCoinCollisions (movePlayer s.player dir dt) rand fuel s.coins k s.score =
        some (kept, newCoins, tips, k1, score1) ∧
      checkObstacleCollisions (movePlayer s.player dir dt) rand fuel s.obstacles k1 score1 =
        some (obs, hits, k', score2) ∧
      s' = { s with player := movePlayer s.player dir dt, coins := kept ++ newCoins,
                    obstacles := obs, score := score2 } :=
  tick_some_elim dir dt rand fuel s k s' tips hits k' hend h

/-- The pre-move state of the C3 witness scenario: the player starts at
the origin, far from the single coin at (4, 0). -/
def ws3 : GameState :=
  { player := ⟨0, 0⟩, coins := [⟨4, 0⟩], obstacles := [], score := 0,
    timeLeft := 60, gameEnded := false }

/-- The post-frame state of the C3 witness scenario: moving right at
speed 5 for 0.8 s lands the player exactly on the coin, which is
collected against the post-move position. -/
def ws3' : GameState :=
  { player := ⟨4, 0⟩, coins := [⟨10, 10⟩], obstacles := [], score := 10,
    timeLeft := 60, gameEnded := false }

/-- Evaluation of one frame on the C3 witness scenario. -/
theorem tick_eval_c3 :
    tick ⟨1, 0⟩ (4/5) wrand 1 ws3 0 =
      some (ws3', ["Diversify your investments to reduce risk."], [], 3) := by
  norm_num [tick, ws3, ws3', movePlayer, clamp, moveSpeed, checkCoinCollisions,
    checkObstacleCollisions, rejectionSample, samplePos, sampleCoord, wrand, coinHit,
    obstacleHit, distSq, coinCollisionDistance, obstacleCollisionDistance,
    exclusionRadius, FINANCE_TIPS]
  rfl

/-- Witness for C3: on the concrete scenario the frame succeeds and
decomposes into a move followed by collision passes at the post-move
position (the coin at (4, 0) is missed by the pre-move origin position
but collected at the post-move position). -/
theorem tick_checks_postmove_position_witness :
    ws3.gameEnded = false ∧
    tick ⟨1, 0⟩ (4/5) wrand 1 ws3 0 =
      some (ws3', ["Diversify your investments to reduce risk."], [], 3) ∧
    ∃ kept newCoins k1 score1 obs score2,
      checkCoinCollisions (movePlayer ws3.player ⟨1, 0⟩ (4/5)) wrand 1 ws3.coins 0 ws3.score =
        some (kept, newCoins, ["Diversify your investments to reduce risk."], k1, score1) ∧
      checkObstacleCollisions (movePlayer ws3.player ⟨1, 0⟩ (4/5)) wrand 1 ws3.obstacles k1 score1 =
        some (obs, [], 3, score2) ∧
      ws3' = { ws3 with player := movePlayer ws3.player ⟨1, 0⟩ (4/5), coins := kept ++ newCoins,
                        obstacles := obs, score := score2 } :=
  ⟨rfl, tick_eval_c3,
    tick_checks_postmove_position ⟨1, 0⟩ (4/5) wrand 1 ws3 0 ws3'
      ["Diversify your investments to reduce risk."] [] 3 rfl tick_eval_c3⟩

/-- An entity-free running state used by several witnesses. -/
def ws0 : GameState :=
  { player := ⟨0, 0⟩, coins := [], obstacles := [], score := 0,
    timeLeft := 60, gameEnded := false }

/-- The state after one frame on `ws0` with direction (1, 0) and a huge
delta-time: the raw move of 500 units is clamped to the boundary 14. -/
def ws0' : GameState :=
  { player := ⟨14, 0⟩, coins := [], obstacles := [], score := 0,
    timeLeft := 60, gameEnded := false }

/-- Evaluation of one frame on `ws0`. -/
theorem tick_eval_ws0 : tick ⟨1, 0⟩ 100 wrand 1 ws0 0 = some (ws0', [], [], 0) := by
  norm_num [tick, ws0, ws0', movePlayer, clamp, moveSpeed, checkCoinCollisions,
    checkObstacleCollisions]

/-- C4: whatever the delta-time and direction input of a frame, the
player's coordinates after the frame are each within `[-14, 14]`
(provided they were before, which holds from initialisation on since the
player starts at the origin). -/
theorem player_stays_in_bounds (dir : Direction) (dt : ℚ) (rand : RandStream)
    (fuel : ℕ) (s : GameState) (k : ℕ) (s' : GameState) (tips hits : List String)
    (k' : ℕ) (hin : inBounds s.player)
    (h : tick dir dt rand fuel s k = some (s', tips, hits, k')) :
    inBounds s'.player := by
  by_cases hg : s.gameEnded
  · rw [tick_ended dir dt rand fuel s k hg] at h
    simp only [Option.some.injEq, Prod.mk.injEq] at h
    obtain ⟨e1, -, -, -⟩ := h
    rw [← e1]
    exact hin
  · have hg' : s.gameEnded = false := by simpa using hg
    obtain ⟨kept, newCoins, k1, score1, obs, score2, -, -, rfl⟩ :=
      tick_some_elim dir dt rand fuel s k s' tips hits k' hg' h
    exact movePlayer_inBounds s.player dir dt

/-- Witness for C4: a frame with delta-time 100 starting from the origin
clamps the player to the boundary, which is still in bounds. -/
theorem player_stays_in_bounds_witness :
    inBounds ws0.player ∧
    tick ⟨1, 0⟩ 100 wrand 1 ws0 0 = some (ws0', [], [], 0) ∧
    inBounds ws0'.player :=
  ⟨by norm_num [inBounds, ws0], tick_eval_ws0,
    player_stays_in_bounds ⟨1, 0⟩ 100 wrand 1 ws0 0 ws0' [] [] 0
      (by norm_num [inBounds, ws0]) tick_eval_ws0⟩

/-- Counting the hits and the misses of a Boolean predicate recovers the
length of the list. -/
theorem countP_not_add {α : Type} (p : α → Bool) (l : List α) :
    l.countP p + l.countP (fun a => !p a) = l.length := by
  induction l with
  | nil => simp
  | cons a t ih => by_cases h : p a <;> simp [List.countP_cons, h] <;> omega

/-- C5: a frame never changes the number of active collectibles or
obstacles (each collected coin is replaced within the frame, and
obstacles are relocated, never removed), and a fresh session starts with
exactly 10 collectibles and 5 obstacles. -/
theorem entity_counts_invariant (dir : Direction) (dt : ℚ) (rand : RandStream)
    (fuel : ℕ) (s : GameState) (k : ℕ) (s' : GameState) (tips hits : List String)
    (k' : ℕ) (h : tick dir dt rand fuel s k = some (s', tips, hits, k')) :
    s'.coins.length = s.coins.length ∧
    s'.obstacles.length = s.obstacles.length ∧
    ∀ rand0, (startGame rand0).coins.length = 10 ∧
      (startGame rand0).obstacles.length = 5 := by
  have hstart : ∀ rand0 : RandStream, (startGame rand0).coins.length = 10 ∧
      (startGame rand0).obstacles.length = 5 := by
    intro rand0
    constructor <;> simp [startGame, generateCoins, generateObstacles]
  by_cases hg : s.gameEnded
  · rw [tick_ended dir dt rand fuel s k hg] at h
    simp only [Option.some.injEq, Prod.mk.injEq] at h
    obtain ⟨e1, -, -, -⟩ := h
    rw [← e1]
    exact ⟨rfl, rfl, hstart⟩
  · have hg' : s.gameEnded = false := by simpa using hg
    obtain ⟨kept, newCoins, k1, score1, obs, score2, hc, hob, rfl⟩ :=
      tick_some_elim dir dt rand fuel s k s' tips hits k' hg' h
    obtain ⟨h1, h2, -, -⟩ := checkCoinCollisions_spec _ rand fuel s.coins k s.score
      kept newCoins tips k1 score1 hc
    obtain ⟨h5, -, -, -, -⟩ := checkObstacleCollisions_spec _ rand fuel s.obstacles k1
      score1 obs hits k' score2 hob
    refine ⟨?_, h5, hstart⟩
    show (kept ++ newCoins).length = s.coins.length
    rw [List.length_append, h1, ← List.countP_eq_length_filter, h2, Nat.add_comm,
      countP_not_add]

/-- Witness for C5: the entity counts before and after a concrete frame
agree, and a fresh session has 10 coins and 5 obstacles. -/
theorem entity_counts_invariant_witness :
    tick ⟨1, 0⟩ 100 wrand 1 ws0 0 = some (ws0', [], [], 0) ∧
    (ws0'.coins.length = ws0.coins.length ∧
     ws0'.obstacles.length = ws0.obstacles.length ∧
     ∀ rand0, (startGame rand0).coins.length = 10 ∧
       (startGame rand0).obstacles.length = 5) :=
  ⟨tick_eval_ws0,
    entity_counts_invariant ⟨1, 0⟩ 100 wrand 1 ws0 0 ws0' [] [] 0 tick_eval_ws0⟩

/-- C6: the score never becomes negative: a frame maps a non-negative
score to a non-negative score (coin collections only add, the obstacle
penalty is floored at 0), the countdown never touches the score, and a
fresh session starts at score 0. -/
theorem score_nonnegative (dir : Direction) (dt : ℚ) (rand : RandStream)
    (fuel : ℕ) (s : GameState) (k : ℕ) (s' : GameState) (tips hits : List String)
    (k' : ℕ) (hs : 0 ≤ s.score)
    (h : tick dir dt rand fuel s k = some (s', tips, hits, k')) :
    0 ≤ s'.score ∧ (∀ t : GameState, (timerStep t).score = t.score) ∧
    ∀ rand0, (startGame rand0).score = 0 := by
  have htimer : ∀ t : GameState, (timerStep t).score = t.score := by
    intro t
    unfold timerStep
    split
    · rfl
    · split <;> rfl
  by_cases hg : s.gameEnded
  · rw [tick_ended dir dt rand fuel s k hg] at h
    simp only [Option.some.injEq, Prod.mk.injEq] at h
    obtain ⟨e1, -, -, -⟩ := h
    rw [← e1]
    exact ⟨hs, htimer, fun rand0 => rfl⟩
  · have hg' : s.gameEnded = false := by simpa using hg
    obtain ⟨kept, newCoins, k1, score1, obs, score2, hc, hob, rfl⟩ :=
      tick_some_elim dir dt rand fuel s k s' tips hits k' hg' h
    obtain ⟨-, -, h3, -⟩ := checkCoinCollisions_spec _ rand fuel s.coins k s.score
      kept newCoins tips k1 score1 hc
    obtain ⟨-, -, h6, -, -⟩ := checkObstacleCollisions_spec _ rand fuel s.obstacles k1
      score1 obs hits k' score2 hob
    refine ⟨?_, htimer, fun rand0 => rfl⟩
    show 0 ≤ score2
    rw [h6]
    apply penalize_iter_nonneg
    rw [h3]
    positivity

/-- Witness for C6: a concrete frame keeps the score non-negative, the
countdown preserves the score, and a fresh session starts at 0. -/
theorem score_nonnegative_witness :
    (0 : ℤ) ≤ ws0.score ∧
    tick ⟨1, 0⟩ 100 wrand 1 ws0 0 = some (ws0', [], [], 0) ∧
    (0 ≤ ws0'.score ∧ (∀ t : GameState, (timerStep t).score = t.score) ∧
     ∀ rand0, (startGame rand0).score = 0) :=
  ⟨le_refl 0, tick_eval_ws0,
    score_nonnegative ⟨1, 0⟩ 100 wrand 1 ws0 0 ws0' [] [] 0 (le_refl 0) tick_eval_ws0⟩

/-- C7: every replacement collectible pushed by a coin pass, and every
position an obstacle is relocated to by an obstacle pass, is at planar
distance at least the exclusion radius 5 from the player position used
for that pass (stated in squared form: squared distance at least
`5 ^ 2`). -/
theorem respawn_respects_exclusion_radius (player : Pos) (rand : RandStream)
    (fuel : ℕ) (coins kept newCoins : List Pos) (tips : List String) (kc kc' : ℕ)
    (sc sc' : ℤ) (obs obs' : List Obstacle) (hits : List String) (ko ko' : ℕ)
    (so so' : ℤ)
    (hc : checkCoinCollisions player rand fuel coins kc sc =
      some (kept, newCoins, tips, kc', sc'))
    (hob : checkObstacleCollisions player rand fuel obs ko so =
      some (obs', hits, ko', so')) :
    (∀ p ∈ newCoins, exclusionRadius ^ 2 ≤ distSq player p) ∧
    (∀ o' ∈ obs', o' ∈ obs ∨ exclusionRadius ^ 2 ≤ distSq player o'.pos) := by
  obtain ⟨-, -, -, h4⟩ := checkCoinCollisions_spec player rand fuel coins kc sc
    kept newCoins tips kc' sc' hc
  obtain ⟨-, -, -, -, h5⟩ := checkObstacleCollisions_spec player rand fuel obs ko so
    obs' hits ko' so' hob
  constructor
  · intro p hp
    obtain ⟨k0, k1, hr⟩ := h4 p hp
    exact rejectionSample_dist player rand fuel k0 p k1 hr
  · intro o' ho'
    rcases h5 o' ho' with hin | ⟨k0, k1, hr⟩
    · exact Or.inl hin
    · exact Or.inr (rejectionSample_dist player rand fuel k0 o'.pos k1 hr)

/-- Witness for C7: on the concrete coin and obstacle scenarios, the
replacement coin at (10, 10) and the relocated obstacle at (10, 10) are
both at squared distance at least 25 from the player at the origin. -/
theorem respawn_respects_exclusion_radius_witness :
    checkCoinCollisions ⟨0, 0⟩ wrand 1 [⟨0, 1/2⟩] 0 0 =
      some ([], [⟨10, 10⟩], ["Diversify your investments to reduce risk."], 3, 10) ∧
    checkObstacleCollisions ⟨0, 0⟩ wrand 1 [wObs] 0 3 =
      some ([wObsMoved], ["Carrying credit card balances month to month"], 2, 0) ∧
    ((∀ p ∈ [(⟨10, 10⟩ : Pos)], exclusionRadius ^ 2 ≤ distSq ⟨0, 0⟩ p) ∧
     (∀ o' ∈ [wObsMoved], o' ∈ [wObs] ∨ exclusionRadius ^ 2 ≤ distSq ⟨0, 0⟩ o'.pos)) :=
  ⟨checkCoin_eval_c1, checkObstacle_eval_c2,
    respawn_respects_exclusion_radius ⟨0, 0⟩ wrand 1 [⟨0, 1/2⟩] [] [⟨10, 10⟩]
      ["Diversify your investments to reduce risk."] 0 3 0 10 [wObs] [wObsMoved]
      ["Carrying credit card balances month to month"] 0 2 3 0
      checkCoin_eval_c1 checkObstacle_eval_c2⟩

/-- C8: running the countdown for the full 60 remaining seconds ends the
session with the clock at 0 and the score untouched, and once a session
is ended both the countdown and the frame update are no-ops, so nothing
mutates the score any further. -/
theorem ended_session_frozen (dir : Direction) (dt : ℚ) (rand : RandStream)
    (fuel k : ℕ) (s : GameState) (h60 : s.timeLeft = 60)
    (hrun : s.gameEnded = false) :
    (timerStep^[60] s).gameEnded = true ∧
    (timerStep^[60] s).timeLeft = 0 ∧
    (timerStep^[60] s).score = s.score ∧
    ∀ t : GameState, t.gameEnded = true →
      timerStep t = t ∧ tick dir dt rand fuel t k = some (t, [], [], k) := by
  obtain ⟨h1, h2, h3⟩ := timerStep_countdown 59 s hrun (by rw [h60])
  exact ⟨h1, h2, h3, fun t ht =>
    ⟨timerStep_ended t ht, tick_ended dir dt rand fuel t k ht⟩⟩

/-- Witness for C8: a fresh session has 60 seconds on the clock; running
the countdown 60 times ends it with score still 0, and ended sessions
are frozen. -/
theorem ended_session_frozen_witness :
    (startGame wrand).timeLeft = 60 ∧
    (startGame wrand).gameEnded = false ∧
    ((timerStep^[60] (startGame wrand)).gameEnded = true ∧
     (timerStep^[60] (startGame wrand)).timeLeft = 0 ∧
     (timerStep^[60] (startGame wrand)).score = (startGame wrand).score ∧
     ∀ t : GameState, t.gameEnded = true →
       timerStep t = t ∧ tick ⟨0, 0⟩ 0 wrand 1 t 0 = some (t, [], [], 0)) :=
  ⟨rfl, rfl, ended_session_frozen ⟨0, 0⟩ 0 wrand 1 0 (startGame wrand) rfl rfl⟩

/-- C9 counterexample: initial placement does not draw over the full
`[-14, 14]` range.  The sampling map is `(r - 0.5) * 25`, so no
unit-interval draw can place a coordinate at 14: the claimed full-range
coordinate 14 is unreachable (every sample is at most 12.5). -/
theorem sampleCoord_never_reaches_bound :
    ¬ ∃ r : ℚ, 0 ≤ r ∧ r ≤ 1 ∧ sampleCoord r = 14 := by
  rintro ⟨r, h0, h1, he⟩
  rw [sampleCoord] at he
  nlinarith

/-- C9 (amended): initialisation produces a fresh session with the
player at the origin, score 0, timer 60 seconds, 10 collectibles and 5
obstacles, each placed at a position drawn by the raw sampling map
`(random - 0.5) * 25` per coordinate with no exclusion-radius check, so
each coordinate lies in `[-12.5, 12.5]` — a strict sub-range of the
`[-14, 14]` play bounds, not the full range. -/
theorem startGame_fresh_session (rand : RandStream) (hr : unitRand rand) :
    (startGame rand).player = ⟨0, 0⟩ ∧
    (startGame rand).score = 0 ∧
    (startGame rand).timeLeft = 60 ∧
    (startGame rand).gameEnded = false ∧
    (startGame rand).coins.length = 10 ∧
    (startGame rand).obstacles.length = 5 ∧
    (∀ c ∈ (startGame rand).coins, ∃ k0, c = samplePos rand k0) ∧
    (∀ o ∈ (startGame rand).obstacles, ∃ k0, o.pos = samplePos rand k0) ∧
    entitiesInRange (startGame rand) := by
  refine ⟨rfl, rfl, rfl, rfl, ?_, ?_, ?_, ?_, startGame_entitiesInRange rand hr⟩
  · simp [startGame, generateCoins]
  · simp [startGame, generateObstacles]
  · exact fun c hc => mem_generateCoins rand 0 c hc
  · exact fun o ho => mem_generateObstacles rand 20 o ho

/-- Witness for the amended C9 on the concrete stream `wrand`. -/
theorem startGame_fresh_session_witness :
    unitRand wrand ∧
    ((startGame wrand).player = ⟨0, 0⟩ ∧
     (startGame wrand).score = 0 ∧
     (startGame wrand).timeLeft = 60 ∧
     (startGame wrand).gameEnded = false ∧
     (startGame wrand).coins.length = 10 ∧
     (startGame wrand).obstacles.length = 5 ∧
     (∀ c ∈ (startGame wrand).coins, ∃ k0, c = samplePos wrand k0) ∧
     (∀ o ∈ (startGame wrand).obstacles, ∃ k0, o.pos = samplePos wrand k0) ∧
     entitiesInRange (startGame wrand)) :=
  ⟨fun n => by norm_num [wrand],
    startGame_fresh_session wrand (fun n => by norm_num [wrand])⟩

/-- C10: with unit-interval draws, every entity position the simulation
ever produces — initial, replacement, and relocated alike — has both
coordinates in `[-12.5, 12.5]` (the range of `(random - 0.5) * 25`), a
strict sub-region of the player's `[-14, 14]` bounds: a fresh session
satisfies the range invariant and every frame preserves it. -/
theorem entity_positions_in_sampled_range (rand : RandStream) (hr : unitRand rand) :
    entitiesInRange (startGame rand) ∧
    ∀ (dir : Direction) (dt : ℚ) (fuel : ℕ) (s : GameState) (k : ℕ) (s' : GameState)
      (tips hits : List String) (k' : ℕ), entitiesInRange s →
      tick dir dt rand fuel s k = some (s', tips, hits, k') → entitiesInRange s' := by
  refine ⟨startGame_entitiesInRange rand hr, ?_⟩
  intro dir dt fuel s k s' tips hits k' hs h
  by_cases hg : s.gameEnded
  · rw [tick_ended dir dt rand fuel s k hg] at h
    simp only [Option.some.injEq, Prod.mk.injEq] at h
    obtain ⟨e1, -, -, -⟩ := h
    rw [← e1]
    exact hs
  · have hg' : s.gameEnded = false := by simpa using hg
    obtain ⟨kept, newCoins, k1, score1, obs, score2, hc, hob, rfl⟩ :=
      tick_some_elim dir dt rand fuel s k s' tips hits k' hg' h
    obtain ⟨h1, -, -, h4⟩ := checkCoinCollisions_spec _ rand fuel s.coins k s.score
      kept newCoins tips k1 score1 hc
    obtain ⟨-, -, -, -, h5⟩ := checkObstacleCollisions_spec _ rand fuel s.obstacles k1
      score1 obs hits k' score2 hob
    constructor
    · intro c hcmem
      rcases List.mem_append.mp hcmem with hk | hn
      · exact hs.1 c (List.mem_of_mem_filter (h1 ▸ hk))
      · obtain ⟨k0, k1', hrj⟩ := h4 c hn
        obtain ⟨k2, rfl⟩ := rejectionSample_samplePos _ rand fuel k0 c k1' hrj
        exact samplePos_range rand hr k2
    · intro o' ho'
      rcases h5 o' ho' with hin | ⟨k0, k1', hrj⟩
      · exact hs.2 o' hin
      · obtain ⟨k2, he⟩ := rejectionSample_samplePos _ rand fuel k0 o'.pos k1' hrj
        rw [he]
        exact samplePos_range rand hr k2

/-- Witness for C10: the fresh session on `wrand` satisfies the range
invariant, and a concrete frame preserves it. -/
theorem entity_positions_in_sampled_range_witness :
    unitRand wrand ∧
    entitiesInRange (startGame wrand) ∧
    entitiesInRange ws0 ∧
    tick ⟨1, 0⟩ 100 wrand 1 ws0 0 = some (ws0', [], [], 0) ∧
    entitiesInRange ws0' :=
  ⟨fun n => by norm_num [wrand],
    (entity_positions_in_sampled_range wrand (fun n => by norm_num [wrand])).1,
    by simp [entitiesInRange, ws0],
    tick_eval_ws0,
    (entity_positions_in_sampled_range wrand (fun n => by norm_num [wrand])).2
      ⟨1, 0⟩ 100 1 ws0 0 ws0' [] [] 0 (by simp [entitiesInRange, ws0]) tick_eval_ws0⟩
